/-
Verification of the credential/token authentication subsystem of the
sw-backend repository (Go package internal/data), shallowly embedded in
Lean 4.

Modelling conventions:
  * Go byte slices are `List Nat` (elements < 256 where it matters); a nil
    slice is distinguished from an empty one by `Option (List Nat)` when the
    code tests against nil.
  * `time.Time` / `time.Duration` are `Int` (an absolute instant / a duration
    in fixed units); `time.Now().Add(ttl)` is `now + ttl`.
  * The external crypto primitives (crypto/sha256, x/crypto/bcrypt) and the
    SQL store are collaborators, not repository code: they are parameters of
    the embedded functions, constrained only by their documented contracts.
  * Go `len` on a string counts bytes; it is modelled as `String.utf8ByteSize`.
  * Fallible Go functions returning `(T, error)` become `Except E T` when the
    code never returns both a value and an error, and explicit pairs when it
    does (notably `TokenModel.New`).
  * Go sentinel error values (`errors.New`) are modelled as their message
    strings; the code compares them only by identity, which the distinct
    message texts preserve.
  * Go pointers, where identity matters (`AnonymousUser`), are modelled as
    heap addresses (`Nat`) together with an explicit heap function.
-/
import Mathlib

namespace SwBackend

/-! ### Base32 (Go encoding/base32, StdEncoding, no padding)

`base32.StdEncoding.WithPadding(base32.NoPadding).EncodeToString` encodes the
input bytes MSB-first into 5-bit groups, the final group zero-padded on the
right, each group mapped through the standard RFC 4648 alphabet
ABCDEFGHIJKLMNOPQRSTUVWXYZ234567, and emits no padding characters. -/

/-- The RFC 4648 standard base-32 alphabet used by Go base32.StdEncoding. -/
def base32Alphabet : List Char :=
  ['A', 'B', 'C', 'D', 'E', 'F', 'G', 'H', 'I', 'J', 'K', 'L', 'M',
   'N', 'O', 'P', 'Q', 'R', 'S', 'T', 'U', 'V', 'W', 'X', 'Y', 'Z',
   '2', '3', '4', '5', '6', '7']

/-- Map a 5-bit group to its alphabet character. -/
def base32Char (n : Nat) : Char :=
  base32Alphabet.getD (n % 32) 'A'

/-- The 8 bits of a byte, most significant first. -/
def byteToBits (b : Nat) : List Bool :=
  [b.testBit 7, b.testBit 6, b.testBit 5, b.testBit 4,
   b.testBit 3, b.testBit 2, b.testBit 1, b.testBit 0]

/-- The bit stream of a byte string, MSB-first. -/
def bytesToBits : List Nat → List Bool
  | [] => []
  | b :: rest => byteToBits b ++ bytesToBits rest

/-- Value of a bit list read MSB-first. -/
def bitsVal : List Bool → Nat
  | [] => 0
  | b :: rest => (if b then 2 ^ rest.length else 0) + bitsVal rest

/-- Pad a bit list on the right with `false` up to length 5. -/
def padTo5 (l : List Bool) : List Bool :=
  l ++ List.replicate (5 - l.length) false

/-- Split a bit stream into 5-bit groups, the last group zero-padded on the
right, and give the value of each group. -/
def bitGroups5 : List Bool → List Nat
  | [] => []
  | b :: rest =>
      bitsVal (padTo5 (b :: rest.take 4)) :: bitGroups5 (rest.drop 4)
termination_by l => l.length
decreasing_by
  simp only [List.length_cons, List.length_drop]
  omega

/-- Go `base32.StdEncoding.WithPadding(base32.NoPadding).EncodeToString`. -/
def base32EncodeNoPad (bs : List Nat) : String :=
  String.mk ((bitGroups5 (bytesToBits bs)).map base32Char)

/-! ### Sentinel errors (users.go, package data) -/

/-- `ErrDuplicateEmail` from users.go. -/
def ErrDuplicateEmail : String := "duplicate email"

/-- `ErrDuplicateUsername` from users.go. -/
def ErrDuplicateUsername : String := "duplicate username"

/-- `ErrEditConflict` from users.go. -/
def ErrEditConflict : String := "edit conflict"

/-- `ErrRecordNotFound` from users.go: the single error returned when a
lookup matches no row. -/
def ErrRecordNotFound : String := "record not found"

/-! ### Token data model (internal/data/tokens.go) -/

/-- Scope constant for account activation tokens (tokens.go). -/
def ScopeActivation : String := "activation"

/-- Scope constant for session authentication tokens (tokens.go). -/
def ScopeAuthentication : String := "authentication"

/-- Scope constant for password reset tokens (tokens.go). -/
def ScopePasswordReset : String := "password-reset"

/-- The `Token` struct of tokens.go. Its JSON tags (`token`, `-`, `-`,
`expiry`, `-`) are recorded separately by `tokenJSON` below. -/
structure Token where
  Plaintext : String
  Hash : List Nat
  UUID : String
  Expiry : Int
  Scope : String
  deriving Repr, DecidableEq

/-- `generateToken(UUID, ttl, scope)` from tokens.go.

Parameters standing for the collaborators:
  * `sha256` — `crypto/sha256.Sum256` applied to the UTF-8 bytes of a string;
  * `now` — the instant `time.Now()` observed during the call;
  * `randResult` — the outcome of `rand.Read` filling the 16-byte buffer: on
    success the 16 bytes drawn from the secure source, otherwise the error.

On success the plaintext of the token is the unpadded base-32 encoding of
the random bytes, its hash is `sha256` of the plaintext, and its expiry is
`now + ttl`. -/
def generateToken (sha256 : String → List Nat) (now : Int)
    (UUID : String) (ttl : Int) (scope : String)
    (randResult : Except String (List Nat)) : Except String Token :=
  match randResult with
  | .error e => .error e
  | .ok randomBytes =>
      let plaintext := base32EncodeNoPad randomBytes
      .ok { Plaintext := plaintext
            Hash := sha256 plaintext
            UUID := UUID
            Expiry := now + ttl
            Scope := scope }

/-! ### Password credential (users.go) -/

/-- The outcome of `bcrypt.CompareHashAndPassword`: nil error, the sentinel
`bcrypt.ErrMismatchedHashAndPassword`, or any other (non-mismatch) error. -/
inductive CompareOutcome where
  | ok : CompareOutcome
  | mismatch : CompareOutcome
  | otherError : String → CompareOutcome
  deriving Repr, DecidableEq

/-- The unexported `password` struct of users.go: a transient plaintext
reference (`*string`, nil when unset) and the bcrypt hash (`[]byte`, nil
when unset). -/
structure Password where
  plaintext : Option String
  hash : Option (List Nat)
  deriving Repr, DecidableEq

/-- `password.Set(plaintextpassword)` from users.go: calls
`bcrypt.GenerateFromPassword` with the fixed cost 12; on success stores the
plaintext reference and the hash on the receiver, on failure returns the
error with the receiver unchanged. `bcryptGen` stands for
`bcrypt.GenerateFromPassword` (password bytes and cost to hash or error). -/
def Password.Set (bcryptGen : String → Nat → Except String (List Nat))
    (_p : Password) (plaintextpassword : String) : Except String Password :=
  match bcryptGen plaintextpassword 12 with
  | .error e => .error e
  | .ok hash => .ok { plaintext := some plaintextpassword, hash := some hash }

/-- `password.Matches(plaintextpassword)` from users.go: runs
`bcrypt.CompareHashAndPassword` on the stored hash (a nil hash is passed to
the primitive as an empty byte slice) and maps the outcome: the mismatch
sentinel to `(false, nil)`, any other error to `(false, err)`, success to
`(true, nil)`. `bcryptCompare` stands for `bcrypt.CompareHashAndPassword`. -/
def Password.Matches (bcryptCompare : List Nat → String → CompareOutcome)
    (p : Password) (plaintextpassword : String) : Bool × Option String :=
  match bcryptCompare (p.hash.getD []) plaintextpassword with
  | .ok => (true, none)
  | .mismatch => (false, none)
  | .otherError e => (false, some e)

/-! ### User data model (users.go) -/

/-- The `User` struct of users.go. Its JSON tags are recorded by `userJSON`
below (`Password` and `Version` carry the tag `-`). -/
structure User where
  UUID : String
  Username : String
  CreatedAt : Int
  Email : String
  Password : Password
  Activated : Bool
  Version : Int
  deriving Repr, DecidableEq

/-- The value `User{}` that the package-level `AnonymousUser` pointer refers
to: the Go zero value of `User`. -/
def anonymousUserValue : User :=
  { UUID := ""
    Username := ""
    CreatedAt := 0
    Email := ""
    Password := { plaintext := none, hash := none }
    Activated := false
    Version := 0 }

/-- The heap address of the package-level allocation
`var AnonymousUser = &User{}` in the pointer model (pointers are heap
addresses; the address itself is arbitrary but fixed). -/
def anonymousUserAddr : Nat := 0

/-- `(u *User) IsAnonymous()` from users.go: `return u == AnonymousUser`,
a Go pointer comparison, i.e. equality of heap addresses — not structural
equality of the pointed-to values. -/
def User.IsAnonymous (receiverAddr : Nat) : Bool :=
  receiverAddr == anonymousUserAddr

/-! ### Validator (package internal/validator — not under src/) -/

/-- Modelled from the spec: the `internal/validator` package is repository
code that is not under src/ (only its callers are). Per the spec, a
validation pass collects per-field failures (`ValidationError`: malformed
input caught before touching crypto or persistence); a check records a keyed
failure message when its condition is false, and the input is accepted when
no failure was recorded. -/
structure Validator where
  errors : List (String × String)
  deriving Repr, DecidableEq

/-- A fresh validator with no recorded failures. -/
def Validator.empty : Validator := { errors := [] }

/-- Modelled from the spec: record a keyed failure message, keeping the
first message recorded for a key. -/
def Validator.AddError (v : Validator) (key message : String) : Validator :=
  if v.errors.any (fun kv => kv.1 == key) then v
  else { errors := v.errors ++ [(key, message)] }

/-- Modelled from the spec: `Check` records the failure message exactly when
the checked condition is false. -/
def Validator.Check (v : Validator) (ok : Bool) (key message : String) : Validator :=
  if ok then v else v.AddError key message

/-- Modelled from the spec: the input is accepted when no failure was
recorded. -/
def Validator.Valid (v : Validator) : Bool :=
  v.errors.isEmpty

/-- `ValidateTokenPlaintext(v, tokenPlaintext)` from tokens.go: the token
plaintext must be non-empty and exactly 26 bytes long. -/
def ValidateTokenPlaintext (v : Validator) (tokenPlaintext : String) : Validator :=
  (v.Check (!(tokenPlaintext == "")) "token" "must be provided").Check
    (tokenPlaintext.utf8ByteSize == 26) "token" "must be 26 bytes long"

/-- `ValidateEmail(v, email)` from users.go. `emailMatches` stands for
`validator.Matches(email, validator.EmailRX)` (the regular expression lives
in the validator package, outside src/). -/
def ValidateEmail (emailMatches : String → Bool) (v : Validator) (email : String) : Validator :=
  (v.Check (!(email == "")) "email" "must be provided").Check
    (emailMatches email) "email" "must be a valid email address"

/-- `ValidateUsername(v, username)` from users.go. -/
def ValidateUsername (v : Validator) (username : String) : Validator :=
  ((v.Check (!(username == "")) "username" "must be provided").Check
    (3 ≤ username.utf8ByteSize) "username" "must be at least 3 bytes long").Check
    (username.utf8ByteSize ≤ 15) "username" "must not be more than 15 bytes long"

/-- `ValidatePasswordPlaintext(v, password)` from users.go: non-empty and
between 8 and 72 bytes. -/
def ValidatePasswordPlaintext (v : Validator) (password : String) : Validator :=
  ((v.Check (!(password == "")) "password" "must be provided").Check
    (8 ≤ password.utf8ByteSize) "password" "must be at least 8 bytes long").Check
    (password.utf8ByteSize ≤ 72) "password" "must not be more than 72 bytes long"

/-- `ValidateUser(v, user)` from users.go: validates username and email,
validates the plaintext password when the transient reference is set, and
then panics (`panic("missing password hash for user")`) when the stored
hash is nil. The panic is modelled as the `Except.error` branch; normal
return as `Except.ok` with the final validator state. -/
def ValidateUser (emailMatches : String → Bool) (v : Validator) (user : User) :
    Except String Validator :=
  let v1 := ValidateUsername v user.Username
  let v2 := ValidateEmail emailMatches v1 user.Email
  let v3 := match user.Password.plaintext with
    | some pt => ValidatePasswordPlaintext v2 pt
    | none => v2
  match user.Password.hash with
  | none => .error "missing password hash for user"
  | some _ => .ok v3

/-! ### The SQL store (collaborator) -/

/-- A value bound to a placeholder of a SQL statement. A Go `[]byte` binds as
`bytes` (nil allowed); strings, booleans and integers bind as themselves. -/
inductive SqlValue where
  | s : String → SqlValue
  | bytes : Option (List Nat) → SqlValue
  | b : Bool → SqlValue
  | i : Int → SqlValue
  deriving Repr, DecidableEq

/-- The argument list `UserModel.Insert` binds to its INSERT statement
(users.go): username, email, password hash, activated — and nothing else
from the user (the uuid comes from `uuid_generate_v4()` in the database). -/
def userInsertArgs (user : User) : List SqlValue :=
  [.s user.Username, .s user.Email, .bytes user.Password.hash, .b user.Activated]

/-- The argument list `UserModel.Update` binds to its UPDATE statement
(users.go): username, email, password hash, activated, uuid, version. -/
def userUpdateArgs (user : User) : List SqlValue :=
  [.s user.Username, .s user.Email, .bytes user.Password.hash, .b user.Activated,
   .s user.UUID, .i user.Version]

/-- The argument list `TokenModel.Insert` binds to its INSERT statement
(tokens.go): hash, uuid, expiry, scope — the plaintext is never bound. -/
def tokenInsertArgs (token : Token) : List SqlValue :=
  [.bytes (some token.Hash), .s token.UUID, .i token.Expiry, .s token.Scope]

/-- A row of the tokens table: (hash, uuid, expiry, scope). -/
structure TokenRow where
  hash : List Nat
  uuid : String
  expiry : Int
  scope : String
  deriving Repr, DecidableEq

/-- The relational state the token verification query runs against. -/
structure DB where
  users : List User
  tokens : List TokenRow
  deriving Repr

/-- The WHERE clause of the `GetForToken` query on a token row: the stored
hash equals the recomputed digest, the scope matches, and the expiry is
strictly later than now (`tokens.expiry > $3`). -/
def rowMatches (tokenHash : List Nat) (tokenScope : String) (now : Int)
    (r : TokenRow) : Bool :=
  r.hash == tokenHash && r.scope == tokenScope && decide (now < r.expiry)

/-- `UserModel.GetForToken(tokenScope, tokenPlaintext)` from users.go:
recomputes `sha256` of the plaintext, joins users to tokens on
`users.uuid = tokens.uuid` filtered by hash, scope and `expiry > now`, and
returns the first resulting user; `sql.ErrNoRows` (no matching row) is
mapped to `ErrRecordNotFound`. -/
def UserModel.GetForToken (sha256 : String → List Nat) (db : DB) (now : Int)
    (tokenScope tokenPlaintext : String) : Except String User :=
  match db.users.filter (fun u =>
      db.tokens.any (fun r =>
        u.UUID == r.uuid && rowMatches (sha256 tokenPlaintext) tokenScope now r)) with
  | [] => .error ErrRecordNotFound
  | u :: _ => .ok u

/-- `TokenModel.New(UUID, ttl, scope)` from tokens.go: calls `generateToken`
and, only when generation succeeded, calls `Insert` once on the generated
token; it then returns the token pointer together with the insert error
(`return token, err`). `insertResult` stands for the outcome of
`TokenModel.Insert` (`none` = success, `some e` = persistence error).

The result records the Go multiple return values `(token, err)` as a pair of
options, and, as an instrumentation of the call trace, the list of tokens
passed to `Insert` during the call. -/
def TokenModel.New (sha256 : String → List Nat) (now : Int)
    (UUID : String) (ttl : Int) (scope : String)
    (randResult : Except String (List Nat))
    (insertResult : Token → Option String) :
    (Option Token × Option String) × List Token :=
  match generateToken sha256 now UUID ttl scope randResult with
  | .error e => ((none, some e), [])
  | .ok token =>
      match insertResult token with
      | none => ((some token, none), [token])
      | some e => ((some token, some e), [token])

/-! ### JSON serialization (encoding/json over the struct tags) -/

/-- A JSON value as far as these structs need: strings and booleans
(`time.Time` marshals as an RFC 3339 string, abstracted by a `timeRepr`
parameter). -/
inductive JsonValue where
  | str : String → JsonValue
  | bool : Bool → JsonValue
  deriving Repr, DecidableEq

/-- The JSON object `encoding/json` produces for a `Token` (tokens.go
struct tags): only `Plaintext` (as "token") and `Expiry` (as "expiry") are
emitted; `Hash`, `UUID` and `Scope` carry the tag `-` and are omitted. -/
def tokenJSON (timeRepr : Int → String) (t : Token) : List (String × JsonValue) :=
  [("token", .str t.Plaintext), ("expiry", .str (timeRepr t.Expiry))]

/-- The JSON object `encoding/json` produces for a `User` (users.go struct
tags): `Password` and `Version` carry the tag `-` and are omitted. -/
def userJSON (timeRepr : Int → String) (u : User) : List (String × JsonValue) :=
  [("uuid", .str u.UUID), ("username", .str u.Username),
   ("created_at", .str (timeRepr u.CreatedAt)), ("email", .str u.Email),
   ("activated", .bool u.Activated)]

/-! ### Request-handling layer (cmd/api — not under src/) -/

/-- Modelled from the spec: the request handlers (cmd/api, not under src/)
validate the presented token plaintext first and reject early — only when
validation accepts do they compute the digest and query the store. The
boolean records whether the store (and the hash primitive) was touched. -/
def handleTokenLookup (sha256 : String → List Nat) (db : DB) (now : Int)
    (tokenScope tokenPlaintext : String) : Except String User × Bool :=
  if (ValidateTokenPlaintext Validator.empty tokenPlaintext).Valid then
    (UserModel.GetForToken sha256 db now tokenScope tokenPlaintext, true)
  else
    (.error "failed validation", false)

/-! ### Concrete stand-ins used by the witnesses -/

/-- A toy byte encoding of a string, used to instantiate the abstract crypto
parameters in witnesses. -/
def toyBytes (s : String) : List Nat :=
  s.toList.map Char.toNat

/-- A toy `bcrypt.GenerateFromPassword`: succeeds with `toyBytes`. -/
def toyBcryptGen (pw : String) (_cost : Nat) : Except String (List Nat) :=
  .ok (toyBytes pw)

/-- A toy `bcrypt.CompareHashAndPassword` agreeing with `toyBcryptGen`. -/
def toyBcryptCompare (hash : List Nat) (pw : String) : CompareOutcome :=
  if hash == toyBytes pw then .ok else .mismatch

/-! ## Theorems -/

/-! ### Length facts about the base-32 encoding -/

theorem bytesToBits_length (bs : List Nat) : (bytesToBits bs).length = 8 * bs.length := by
  induction bs with
  | nil => rfl
  | cons b rest ih =>
      simp only [bytesToBits, List.length_append, List.length_cons, List.length_nil,
        byteToBits, ih]
      omega

theorem bitGroups5_length (l : List Bool) : (bitGroups5 l).length = (l.length + 4) / 5 := by
  induction l using bitGroups5.induct with
  | case1 => simp [bitGroups5]
  | case2 b rest ih =>
      rw [bitGroups5]
      simp only [List.length_cons, List.length_drop] at *
      omega

theorem base32Char_utf8Size (n : Nat) : (base32Char n).utf8Size = 1 := by
  have h32 : n % 32 < base32Alphabet.length := by
    have : n % 32 < 32 := Nat.mod_lt _ (by norm_num)
    simpa [base32Alphabet] using this
  have hmem : base32Char n ∈ base32Alphabet := by
    unfold base32Char
    rw [List.getD_eq_getElem _ _ h32]
    exact List.getElem_mem h32
  have hall : base32Alphabet.all (fun c => c.utf8Size == 1) := by decide
  have := List.all_eq_true.mp hall _ hmem
  simpa using this

theorem utf8ByteSize_mk_ascii (l : List Char) (h : ∀ c ∈ l, c.utf8Size = 1) :
    (String.mk l).utf8ByteSize = l.length := by
  induction l with
  | nil => rfl
  | cons c cs ih =>
      have hstep : (String.mk (c :: cs)).utf8ByteSize
          = (String.mk cs).utf8ByteSize + c.utf8Size := rfl
      rw [hstep, ih (fun x hx => h x (List.mem_cons_of_mem _ hx)),
        h c (List.mem_cons_self _ _), List.length_cons]

theorem base32EncodeNoPad_utf8ByteSize (bs : List Nat) :
    (base32EncodeNoPad bs).utf8ByteSize = (8 * bs.length + 4) / 5 := by
  unfold base32EncodeNoPad
  rw [utf8ByteSize_mk_ascii]
  · rw [List.length_map, bitGroups5_length, bytesToBits_length]
  · intro c hc
    obtain ⟨n, _, rfl⟩ := List.mem_map.mp hc
    exact base32Char_utf8Size n

theorem base32EncodeNoPad_length (bs : List Nat) :
    (base32EncodeNoPad bs).length = (8 * bs.length + 4) / 5 := by
  show ((bitGroups5 (bytesToBits bs)).map base32Char).length = _
  rw [List.length_map, bitGroups5_length, bytesToBits_length]

/-! ### C1 — generateToken -/

/-- C1: for every owner UUID, ttl and scope, a successfully generated token
has as plaintext the unpadded base-32 encoding of the 16 random bytes, of
length (in bytes and in characters) exactly 26; its hash is SHA256 of the
plaintext; its expiry is the generation time plus ttl; and generation fails
exactly when the secure random source fails, propagating that error. -/
theorem generateToken_correct (sha256 : String → List Nat) (now : Int)
    (UUID : String) (ttl : Int) (scope : String) (bytes : List Nat)
    (hlen : bytes.length = 16) :
    (∃ t, generateToken sha256 now UUID ttl scope (Except.ok bytes) = Except.ok t ∧
      t.Plaintext = base32EncodeNoPad bytes ∧
      t.Plaintext.utf8ByteSize = 26 ∧
      t.Plaintext.length = 26 ∧
      t.Hash = sha256 t.Plaintext ∧
      t.Expiry = now + ttl ∧ t.UUID = UUID ∧ t.Scope = scope) ∧
    (∀ e, generateToken sha256 now UUID ttl scope (Except.error e) = Except.error e) := by
  constructor
  · refine ⟨_, rfl, rfl, ?_, ?_, rfl, rfl, rfl, rfl⟩
    · rw [base32EncodeNoPad_utf8ByteSize, hlen]
    · rw [base32EncodeNoPad_length, hlen]
  · intro e
    rfl

/-- Witness for C1 at a concrete input: the all-zero 16-byte draw. -/
theorem generateToken_correct_witness :
    (∃ t, generateToken (fun _ => ([] : List Nat)) 0 "owner" 3600 ScopeActivation
        (Except.ok (List.replicate 16 0)) = Except.ok t ∧
      t.Plaintext = base32EncodeNoPad (List.replicate 16 0) ∧
      t.Plaintext.utf8ByteSize = 26 ∧
      t.Plaintext.length = 26 ∧
      t.Hash = (fun _ => ([] : List Nat)) t.Plaintext ∧
      t.Expiry = 0 + 3600 ∧ t.UUID = "owner" ∧ t.Scope = ScopeActivation) ∧
    (∀ e, generateToken (fun _ => ([] : List Nat)) 0 "owner" 3600 ScopeActivation
        (Except.error e) = Except.error e) :=
  generateToken_correct (fun _ => ([] : List Nat)) 0 "owner" 3600 ScopeActivation
    (List.replicate 16 0) (by simp)

/-! ### C2 — UserModel.GetForToken -/

/-- C2: verification resolves the owner only from a token row whose hash
equals the recomputed SHA256 of the plaintext, whose scope matches, and
whose expiry is strictly later than now; when no such row exists the result
is the single `ErrRecordNotFound` error; in particular a token whose every
hash- and scope-matching row is expired yields `ErrRecordNotFound` even with
correct plaintext and scope. -/
theorem GetForToken_spec (sha256 : String → List Nat) (db : DB) (now : Int)
    (tokenScope tokenPlaintext : String) :
    (∀ u, UserModel.GetForToken sha256 db now tokenScope tokenPlaintext = Except.ok u →
      u ∈ db.users ∧ ∃ r ∈ db.tokens, u.UUID = r.uuid ∧
        r.hash = sha256 tokenPlaintext ∧ r.scope = tokenScope ∧ now < r.expiry) ∧
    ((∀ r ∈ db.tokens,
        ¬(r.hash = sha256 tokenPlaintext ∧ r.scope = tokenScope ∧ now < r.expiry ∧
          ∃ u ∈ db.users, u.UUID = r.uuid)) →
      UserModel.GetForToken sha256 db now tokenScope tokenPlaintext
        = Except.error ErrRecordNotFound) ∧
    ((∀ r ∈ db.tokens, r.hash = sha256 tokenPlaintext → r.scope = tokenScope →
        r.expiry ≤ now) →
      UserModel.GetForToken sha256 db now tokenScope tokenPlaintext
        = Except.error ErrRecordNotFound) := by
  have hkey : ∀ (hno : ∀ r ∈ db.tokens,
      ¬(r.hash = sha256 tokenPlaintext ∧ r.scope = tokenScope ∧ now < r.expiry ∧
        ∃ u ∈ db.users, u.UUID = r.uuid)),
      UserModel.GetForToken sha256 db now tokenScope tokenPlaintext
        = Except.error ErrRecordNotFound := by
    intro hno
    have hfil : db.users.filter (fun u =>
        db.tokens.any (fun r =>
          u.UUID == r.uuid && rowMatches (sha256 tokenPlaintext) tokenScope now r)) = [] := by
      rw [List.filter_eq_nil_iff]
      intro u hu
      simp only [List.any_eq_true, Bool.and_eq_true, beq_iff_eq, rowMatches,
        decide_eq_true_eq, not_exists]
      rintro r ⟨hr, huid, ⟨⟨hhash, hscope⟩, hexp⟩⟩
      exact hno r hr ⟨hhash, hscope, hexp, u, hu, huid⟩
    unfold UserModel.GetForToken
    rw [hfil]
  refine ⟨?_, hkey, ?_⟩
  · intro u hu
    unfold UserModel.GetForToken at hu
    cases hfil : db.users.filter (fun u =>
        db.tokens.any (fun r =>
          u.UUID == r.uuid && rowMatches (sha256 tokenPlaintext) tokenScope now r)) with
    | nil => rw [hfil] at hu; exact absurd hu (by simp)
    | cons u0 rest =>
        rw [hfil] at hu
        have huu : u0 = u := by
          simpa using hu
        subst huu
        have hmem : u0 ∈ db.users.filter (fun u =>
            db.tokens.any (fun r =>
              u.UUID == r.uuid && rowMatches (sha256 tokenPlaintext) tokenScope now r)) := by
          rw [hfil]
          exact List.mem_cons_self _ _
        obtain ⟨humem, hpred⟩ := List.mem_filter.mp hmem
        refine ⟨humem, ?_⟩
        simp only [List.any_eq_true, Bool.and_eq_true, beq_iff_eq, rowMatches,
          decide_eq_true_eq] at hpred
        obtain ⟨r, hr, huid, ⟨⟨hhash, hscope⟩, hexp⟩⟩ := hpred
        exact ⟨r, hr, huid, hhash, hscope, hexp⟩
  · intro hexp
    apply hkey
    rintro r hr ⟨hhash, hscope, hlt, -⟩
    exact absurd hlt (not_lt.mpr (hexp r hr hhash hscope))

/-- Witness for C2 at a concrete store: a single token row with correct hash
and scope but already expired resolves to `ErrRecordNotFound`. -/
theorem GetForToken_spec_witness :
    UserModel.GetForToken toyBytes
      { users := [{ anonymousUserValue with UUID := "u1" }],
        tokens := [{ hash := toyBytes "pt", uuid := "u1", expiry := 5,
                     scope := ScopeActivation }] }
      10 ScopeActivation "pt" = Except.error ErrRecordNotFound :=
  (GetForToken_spec toyBytes
      { users := [{ anonymousUserValue with UUID := "u1" }],
        tokens := [{ hash := toyBytes "pt", uuid := "u1", expiry := 5,
                     scope := ScopeActivation }] }
      10 ScopeActivation "pt").2.2 (by
    intro r hr h1 h2
    simp only [List.mem_singleton] at hr
    subst hr
    decide)

/-! ### C3 — Set followed by Matches -/

/-- C3: for every plaintext password P with 8 ≤ len(P) ≤ 72, `Set(P)` then
`Matches(P)` on the same credential returns `(true, nil)`, and `Matches(Q)`
for any Q distinct from P returns `(false, nil)`. The hypotheses on
`bcryptGen` / `bcryptCompare` are the documented bcrypt contract at the
relevant points: hashing succeeds, comparison succeeds against the hashed
password and yields the mismatch sentinel against any other password. -/
theorem password_set_then_matches
    (bcryptGen : String → Nat → Except String (List Nat))
    (bcryptCompare : List Nat → String → CompareOutcome)
    (p : Password) (P Q : String) (h : List Nat)
    (hmin : 8 ≤ P.utf8ByteSize) (hmax : P.utf8ByteSize ≤ 72)
    (hgen : bcryptGen P 12 = Except.ok h)
    (hok : bcryptCompare h P = CompareOutcome.ok)
    (hne : Q ≠ P)
    (hbad : bcryptCompare h Q = CompareOutcome.mismatch) :
    Password.Set bcryptGen p P = Except.ok { plaintext := some P, hash := some h } ∧
    Password.Matches bcryptCompare { plaintext := some P, hash := some h } P
      = (true, none) ∧
    Password.Matches bcryptCompare { plaintext := some P, hash := some h } Q
      = (false, none) := by
  refine ⟨?_, ?_, ?_⟩
  · unfold Password.Set
    rw [hgen]
  · unfold Password.Matches
    simp only [Option.getD_some]
    rw [hok]
  · unfold Password.Matches
    simp only [Option.getD_some]
    rw [hbad]

/-- Witness for C3 at concrete passwords and the toy bcrypt stand-ins, which
provably satisfy the bcrypt contract hypotheses at these points. -/
theorem password_set_then_matches_witness :
    Password.Set toyBcryptGen { plaintext := none, hash := none } "password1"
      = Except.ok { plaintext := some "password1", hash := some (toyBytes "password1") } ∧
    Password.Matches toyBcryptCompare
      { plaintext := some "password1", hash := some (toyBytes "password1") } "password1"
      = (true, none) ∧
    Password.Matches toyBcryptCompare
      { plaintext := some "password1", hash := some (toyBytes "password1") } "hunter234"
      = (false, none) :=
  password_set_then_matches toyBcryptGen toyBcryptCompare
    { plaintext := none, hash := none } "password1" "hunter234" (toyBytes "password1")
    (by decide) (by decide) rfl (by decide) (by decide) (by decide)

/-! ### C4 — Matches outcome mapping -/

/-- C4: `Matches` returns `(false, nil)` exactly when the bcrypt comparison
reports the mismatch sentinel, `(false, err)` with the non-nil error for any
other comparison failure, and `(true, nil)` when the comparison succeeds.
The three cases of `CompareOutcome` are exhaustive, so each implication is
an equivalence. -/
theorem matches_outcome_mapping
    (bcryptCompare : List Nat → String → CompareOutcome)
    (p : Password) (pw : String) :
    (bcryptCompare (p.hash.getD []) pw = CompareOutcome.mismatch →
      Password.Matches bcryptCompare p pw = (false, none)) ∧
    (∀ e, bcryptCompare (p.hash.getD []) pw = CompareOutcome.otherError e →
      Password.Matches bcryptCompare p pw = (false, some e)) ∧
    (bcryptCompare (p.hash.getD []) pw = CompareOutcome.ok →
      Password.Matches bcryptCompare p pw = (true, none)) := by
  refine ⟨?_, ?_, ?_⟩
  · intro hc
    unfold Password.Matches
    rw [hc]
  · intro e hc
    unfold Password.Matches
    rw [hc]
  · intro hc
    unfold Password.Matches
    rw [hc]

/-- Witness for C4: each of the three outcomes at a concrete credential. -/
theorem matches_outcome_mapping_witness :
    Password.Matches (fun _ _ => CompareOutcome.mismatch)
      { plaintext := none, hash := none } "pw" = (false, none) ∧
    Password.Matches (fun _ _ => CompareOutcome.otherError "hash too short")
      { plaintext := none, hash := none } "pw" = (false, some "hash too short") ∧
    Password.Matches (fun _ _ => CompareOutcome.ok)
      { plaintext := none, hash := none } "pw" = (true, none) :=
  ⟨(matches_outcome_mapping (fun _ _ => CompareOutcome.mismatch)
      { plaintext := none, hash := none } "pw").1 rfl,
   (matches_outcome_mapping (fun _ _ => CompareOutcome.otherError "hash too short")
      { plaintext := none, hash := none } "pw").2.1 "hash too short" rfl,
   (matches_outcome_mapping (fun _ _ => CompareOutcome.ok)
      { plaintext := none, hash := none } "pw").2.2 rfl⟩

/-! ### C5 — TokenModel.New -/

/-- C5 counterexample: at a concrete input whose insert fails, `New` does
not discard the generated token — it returns the token (present, `isSome`)
together with the persistence error, mirroring `return token, err` in
tokens.go. -/
theorem New_insert_failure_counterexample :
    (((TokenModel.New (fun _ => ([] : List Nat)) 0 "owner" 3600 ScopeActivation
        (Except.ok (List.replicate 16 0)) (fun _ => some "insert failed")).1).1.isSome
      = true) ∧
    (((TokenModel.New (fun _ => ([] : List Nat)) 0 "owner" 3600 ScopeActivation
        (Except.ok (List.replicate 16 0)) (fun _ => some "insert failed")).1).2
      = some "insert failed") :=
  ⟨rfl, rfl⟩

/-- C5 amended: `New` first generates and only then persists. If generation
fails, no insert is attempted (empty attempt trace) and the generation error
is returned with no token. If generation succeeds, exactly one insert is
attempted (no retry); its error, if any, is surfaced to the caller — and the
generated, unpersisted token value is returned alongside the error rather
than discarded. -/
theorem New_generate_then_insert (sha256 : String → List Nat) (now : Int)
    (UUID : String) (ttl : Int) (scope : String)
    (insertResult : Token → Option String) :
    (∀ e, TokenModel.New sha256 now UUID ttl scope (Except.error e) insertResult
      = ((none, some e), [])) ∧
    (∀ bytes, ∃ t,
      generateToken sha256 now UUID ttl scope (Except.ok bytes) = Except.ok t ∧
      TokenModel.New sha256 now UUID ttl scope (Except.ok bytes) insertResult
        = ((some t, insertResult t), [t])) := by
  constructor
  · intro e
    rfl
  · intro bytes
    refine ⟨_, rfl, ?_⟩
    unfold TokenModel.New generateToken
    cases hins : insertResult { Plaintext := base32EncodeNoPad bytes
                                Hash := sha256 (base32EncodeNoPad bytes)
                                UUID := UUID
                                Expiry := now + ttl
                                Scope := scope } <;>
      simp [hins]

/-! ### C6 — what Set stores and what is persisted -/

/-- C6 counterexample: at a concrete input, after `Set` the credential keeps
the plaintext in its in-memory `plaintext` field (`p.plaintext = &plaintextpassword`
in users.go) — it is not limited to the duration of the call. -/
theorem set_retains_plaintext_counterexample :
    Password.Set toyBcryptGen { plaintext := none, hash := none } "password123"
      = Except.ok { plaintext := some "password123",
                    hash := some (toyBytes "password123") } :=
  rfl

/-- C6 amended: `Set` stores the salted hash and also retains the plaintext
in the in-memory `plaintext` field of the credential (used by `ValidateUser`);
however only the hash reaches the persisted representation — the INSERT and
UPDATE argument lists are unchanged when the plaintext field is dropped, and
the user JSON serialization is independent of the whole credential. -/
theorem set_persists_only_hash
    (bcryptGen : String → Nat → Except String (List Nat))
    (pw : String) (p p2 : Password) (h : List Nat)
    (hgen : bcryptGen pw 12 = Except.ok h)
    (hset : Password.Set bcryptGen p pw = Except.ok p2)
    (user : User) (timeRepr : Int → String) :
    p2 = { plaintext := some pw, hash := some h } ∧
    userInsertArgs { user with Password := p2 }
      = userInsertArgs { user with Password := { plaintext := none, hash := some h } } ∧
    userUpdateArgs { user with Password := p2 }
      = userUpdateArgs { user with Password := { plaintext := none, hash := some h } } ∧
    userJSON timeRepr { user with Password := p2 }
      = userJSON timeRepr { user with Password := { plaintext := none, hash := none } } := by
  have hp2 : p2 = { plaintext := some pw, hash := some h } := by
    unfold Password.Set at hset
    rw [hgen] at hset
    exact (Except.ok.injEq _ _).mp hset.symm
  subst hp2
  exact ⟨rfl, rfl, rfl, rfl⟩

/-- Witness for C6 amended at a concrete credential and user. -/
theorem set_persists_only_hash_witness :
    ({ plaintext := some "password123", hash := some (toyBytes "password123") } : Password)
      = { plaintext := some "password123", hash := some (toyBytes "password123") } ∧
    userInsertArgs { anonymousUserValue with
        Password := { plaintext := some "password123",
                      hash := some (toyBytes "password123") } }
      = userInsertArgs { anonymousUserValue with
          Password := { plaintext := none, hash := some (toyBytes "password123") } } ∧
    userUpdateArgs { anonymousUserValue with
        Password := { plaintext := some "password123",
                      hash := some (toyBytes "password123") } }
      = userUpdateArgs { anonymousUserValue with
          Password := { plaintext := none, hash := some (toyBytes "password123") } } ∧
    userJSON toString { anonymousUserValue with
        Password := { plaintext := some "password123",
                      hash := some (toyBytes "password123") } }
      = userJSON toString { anonymousUserValue with
          Password := { plaintext := none, hash := none } } :=
  set_persists_only_hash toyBcryptGen "password123"
    { plaintext := none, hash := none }
    { plaintext := some "password123", hash := some (toyBytes "password123") }
    (toyBytes "password123") rfl rfl anonymousUserValue toString

/-! ### C7 — token plaintext format validation -/

/-- C7: starting from a fresh validator, `ValidateTokenPlaintext` accepts a
presented plaintext exactly when it is non-empty and exactly 26 bytes long;
and a plaintext failing the check is rejected by the (spec-modelled) handler
before the digest is computed or the store is queried. -/
theorem validateTokenPlaintext_spec (sha256 : String → List Nat) (db : DB)
    (now : Int) (tokenScope pt : String) :
    ((ValidateTokenPlaintext Validator.empty pt).Valid = true ↔
      (pt ≠ "" ∧ pt.utf8ByteSize = 26)) ∧
    ((ValidateTokenPlaintext Validator.empty pt).Valid = false →
      handleTokenLookup sha256 db now tokenScope pt
        = (Except.error "failed validation", false)) := by
  constructor
  · unfold ValidateTokenPlaintext Validator.Check Validator.AddError Validator.empty
      Validator.Valid
    cases h1 : (pt == "") <;> cases h2 : (pt.utf8ByteSize == 26) <;>
      simp_all
  · intro hv
    unfold handleTokenLookup
    rw [hv]
    simp

/-- Witness for C7 at the concrete plaintext "short" (wrong length). -/
theorem validateTokenPlaintext_spec_witness :
    (((ValidateTokenPlaintext Validator.empty "short").Valid = true) ↔
      ("short" ≠ "" ∧ ("short" : String).utf8ByteSize = 26)) ∧
    handleTokenLookup toyBytes { users := [], tokens := [] } 0 ScopeActivation "short"
      = (Except.error "failed validation", false) :=
  ⟨(validateTokenPlaintext_spec toyBytes { users := [], tokens := [] } 0
      ScopeActivation "short").1,
   (validateTokenPlaintext_spec toyBytes { users := [], tokens := [] } 0
      ScopeActivation "short").2 (by decide)⟩

/-! ### C8 — missing password hash is fatal -/

/-- C8: validating a user whose stored credential hash is absent (nil) hits
the `panic("missing password hash for user")` branch — a fatal programming
error, not a recorded validation failure; with a non-nil hash the function
returns normally (no panic) whatever the validation outcome. -/
theorem validateUser_nil_hash_panics (emailMatches : String → Bool)
    (v : Validator) (user : User) :
    (user.Password.hash = none →
      ValidateUser emailMatches v user = Except.error "missing password hash for user") ∧
    (∀ h, user.Password.hash = some h →
      ∃ v2, ValidateUser emailMatches v user = Except.ok v2) := by
  constructor
  · intro hnone
    unfold ValidateUser
    rw [hnone]
  · intro h hsome
    unfold ValidateUser
    rw [hsome]
    exact ⟨_, rfl⟩

/-- Witness for C8: the zero-valued user (nil hash) panics; the same user
with an empty-but-present hash does not. -/
theorem validateUser_nil_hash_panics_witness :
    ValidateUser (fun _ => true) Validator.empty anonymousUserValue
      = Except.error "missing password hash for user" ∧
    ∃ v2, ValidateUser (fun _ => true) Validator.empty
      { anonymousUserValue with Password := { plaintext := none, hash := some [] } }
      = Except.ok v2 :=
  ⟨(validateUser_nil_hash_panics (fun _ => true) Validator.empty anonymousUserValue).1 rfl,
   (validateUser_nil_hash_panics (fun _ => true) Validator.empty
      { anonymousUserValue with Password := { plaintext := none, hash := some [] } }).2
      [] rfl⟩

/-! ### C9 — IsAnonymous is pointer identity -/

/-- C9: `IsAnonymous` is true exactly when the receiver is the identical
package-level `AnonymousUser` pointer (the same heap address); a distinct
allocation returns false even when the pointed-to values are structurally
equal. -/
theorem isAnonymous_pointer_identity (heap : Nat → User) (p : Nat) :
    (User.IsAnonymous p = true ↔ p = anonymousUserAddr) ∧
    (heap p = heap anonymousUserAddr → p ≠ anonymousUserAddr →
      User.IsAnonymous p = false) := by
  constructor
  · unfold User.IsAnonymous
    exact beq_iff_eq
  · intro _ hne
    unfold User.IsAnonymous
    exact beq_eq_false_iff_ne.mpr hne

/-- Witness for C9: on a heap where every address holds the zero-valued
user (structurally equal to the value behind `AnonymousUser`), the distinct
address 1 is still not anonymous. -/
theorem isAnonymous_pointer_identity_witness :
    User.IsAnonymous 1 = false :=
  (isAnonymous_pointer_identity (fun _ => anonymousUserValue) 1).2 rfl (by decide)

/-! ### C10 — token JSON depends only on Plaintext and Expiry -/

/-- C10: the JSON serialization of a token depends only on its `Plaintext`
and `Expiry` fields — tokens equal in those two fields serialize identically
whatever their `Hash`, `UUID` and `Scope` — and the emitted keys are exactly
`token` and `expiry`, so digest, owner identity and scope are never emitted. -/
theorem tokenJSON_only_plaintext_expiry (timeRepr : Int → String) (t1 t2 : Token)
    (hp : t1.Plaintext = t2.Plaintext) (he : t1.Expiry = t2.Expiry) :
    tokenJSON timeRepr t1 = tokenJSON timeRepr t2 ∧
    (tokenJSON timeRepr t1).map Prod.fst = ["token", "expiry"] := by
  constructor
  · unfold tokenJSON
    rw [hp, he]
  · rfl

/-- Witness for C10: two tokens differing in hash, owner and scope but equal
in plaintext and expiry serialize to the same JSON. -/
theorem tokenJSON_only_plaintext_expiry_witness :
    tokenJSON toString
        { Plaintext := "pt", Hash := [1], UUID := "u1", Expiry := 99,
          Scope := ScopeActivation }
      = tokenJSON toString
        { Plaintext := "pt", Hash := [2], UUID := "u2", Expiry := 99,
          Scope := ScopeAuthentication } ∧
    (tokenJSON toString
        { Plaintext := "pt", Hash := [1], UUID := "u1", Expiry := 99,
          Scope := ScopeActivation }).map Prod.fst = ["token", "expiry"] :=
  tokenJSON_only_plaintext_expiry toString
    { Plaintext := "pt", Hash := [1], UUID := "u1", Expiry := 99,
      Scope := ScopeActivation }
    { Plaintext := "pt", Hash := [2], UUID := "u2", Expiry := 99,
      Scope := ScopeAuthentication }
    rfl rfl

end SwBackend
